import Mathlib

/-!
Shallow embedding of the newspaper web application (Django project
"thenewspage"): the data model (accounts/models.py, articles/models.py),
the forms (accounts/forms.py, articles/forms.py) and the class-based
views (accounts/views.py, articles/views.py), together with proofs of
the specification's claims about them.

Conventions of the embedding:
  - Database rows are records in lists; primary keys are natural numbers
    handed out by per-table counters in the state.
  - The session is `Option Nat` (the id of the authenticated user, if
    any); a request is authenticated exactly when the session is `some`.
  - An HTTP response is a small inductive: `ok` (200 render),
    `okErrors fs` (200 re-render with field errors on the fields `fs`),
    `redirect p` (302 to `p`), `redirectLogin next` (the framework's
    redirect-to-login carrying the return path `next` as its query
    parameter), `forbidden` (403) and `notFound` (404).
  - Mixin order follows Django dispatch: `LoginRequiredMixin` first
    (unauthenticated -> redirect to login with the requested path),
    then `UserPassesTestMixin.test_func` (which loads the object, so a
    missing id gives 404 first, and a failing test on an authenticated
    user gives 403), then form validation, then the mutation.
-/

namespace TheNewsPage

/-- The accounts.models.CustomUser row: AbstractUser fields we need plus
the optional age (PositiveIntegerField, null and blank allowed). The age
is carried as an Int so that the form-level non-negativity check is a
real check. -/
structure CustomUser where
  id : Nat
  username : String
  email : String
  password : String
  age : Option Int
deriving Repr, DecidableEq

/-- The articles.models.Article row: title (CharField max_length 255),
body (TextField), date (DateTimeField auto_now_add, modelled as the
state clock at creation) and author (ForeignKey to the user model,
on_delete CASCADE), stored as the author's id. -/
structure Article where
  id : Nat
  title : String
  body : String
  date : Nat
  author : Nat
deriving Repr, DecidableEq

/-- The articles.models.Comment row: comment (CharField max_length 150),
article (ForeignKey to Article, on_delete CASCADE) and author
(ForeignKey to the user model, on_delete CASCADE), both stored as ids. -/
structure Comment where
  id : Nat
  comment : String
  article : Nat
  author : Nat
deriving Repr, DecidableEq

/-- The whole application state: the three tables, the session, the
three primary-key counters and the clock used for auto_now_add. -/
structure AppState where
  users : List CustomUser
  articles : List Article
  comments : List Comment
  session : Option Nat
  nextUserId : Nat
  nextArticleId : Nat
  nextCommentId : Nat
  now : Nat
deriving Repr, DecidableEq

/-- HTTP responses, at the granularity the spec talks about. -/
inductive HttpResponse where
  | ok
  | okErrors (fields : List String)
  | redirect (path : String)
  | redirectLogin (next : String)
  | forbidden
  | notFound
deriving Repr, DecidableEq

/-! URL paths, from articles/urls.py mounted at /articles/ and the
accounts URLs (spec section 6). -/

def articleListPath : String := "/articles/"

def articleDetailPath (pk : Nat) : String := "/articles/details/" ++ toString pk

def articleNewPath : String := "/articles/new/"

def articleEditPath (pk : Nat) : String := "/articles/edit/" ++ toString pk

def articleDeletePath (pk : Nat) : String := "/articles/delete/" ++ toString pk

def loginPath : String := "/accounts/login/"

/-- Row lookup by primary key, as the generic views' get_object. -/
def findArticle (s : AppState) (pk : Nat) : Option Article :=
  s.articles.find? (fun a => a.id == pk)

/-- Row lookup for users. -/
def findUser (s : AppState) (uid : Nat) : Option CustomUser :=
  s.users.find? (fun u => u.id == uid)

/-! Forms. -/

/-- Field errors of the article model form with fields (title, body):
both are required (CharField and TextField, blank False by default) and
the title is bounded by max_length 255. -/
def articleFormErrors (title body : String) : List String :=
  (if title = "" then ["title"] else []) ++
  (if 255 < title.length then ["title"] else []) ++
  (if body = "" then ["body"] else [])

/-- The articles.forms.CommentForm binds exactly the field named
"comment" out of the request payload (Meta.fields is the one-element
tuple); every other key of the payload is ignored. A missing field
reads as the empty string, which then fails the required check. -/
def formCleanComment (payload : List (String × String)) : String :=
  match payload.find? (fun kv => kv.fst == "comment") with
  | some kv => kv.snd
  | none => ""

/-- Field errors of the CommentForm: the comment text is required and
bounded by max_length 150. -/
def commentFormErrors (text : String) : List String :=
  (if text = "" then ["comment"] else []) ++
  (if 150 < text.length then ["comment"] else [])

/-- The data submitted to accounts.forms.CustomUserCreationForm:
username, email, optional age, and the two password fields of
UserCreationForm. -/
structure SignupForm where
  username : String
  email : String
  age : Option Int
  password1 : String
  password2 : String
deriving Repr, DecidableEq

/-- Field errors of the signup form: username required and unique,
password required, the two passwords must match, and the optional age
must be non-negative (PositiveIntegerField). -/
def signupFormErrors (s : AppState) (f : SignupForm) : List String :=
  (if f.username = "" then ["username"] else []) ++
  (if s.users.any (fun u => u.username == f.username) then ["username"] else []) ++
  (if f.password1 = "" then ["password1"] else []) ++
  (if f.password1 ≠ f.password2 then ["password2"] else []) ++
  (match f.age with
   | some a => if a < 0 then ["age"] else []
   | none => [])

/-! The views (articles/views.py, accounts/views.py). Each operation
takes the state and returns the response together with the new state. -/

/-- ArticleListView: LoginRequiredMixin, then render the list. -/
def articleList (s : AppState) : HttpResponse × AppState :=
  match s.session with
  | none => (.redirectLogin articleListPath, s)
  | some _ => (.ok, s)

/-- ArticleDetailView GET (dispatching to ArticleDetailGet):
LoginRequiredMixin, then DetailView.get_object, then render the detail
page with its comment form. -/
def articleDetailGet (s : AppState) (pk : Nat) : HttpResponse × AppState :=
  match s.session with
  | none => (.redirectLogin (articleDetailPath pk), s)
  | some _ =>
    match findArticle s pk with
    | none => (.notFound, s)
    | some _ => (.ok, s)

/-- ArticleCreateView: LoginRequiredMixin, then the model form on
(title, body); form_valid sets the instance's author to the requester
before saving; CreateView then redirects to the new article's
get_absolute_url, its detail page. -/
def articleCreate (s : AppState) (title body : String) : HttpResponse × AppState :=
  match s.session with
  | none => (.redirectLogin articleNewPath, s)
  | some uid =>
    if articleFormErrors title body ≠ [] then
      (.okErrors (articleFormErrors title body), s)
    else
      let a : Article :=
        { id := s.nextArticleId, title := title, body := body
          date := s.now, author := uid }
      (.redirect (articleDetailPath a.id),
       { s with articles := s.articles ++ [a]
                nextArticleId := s.nextArticleId + 1 })

/-- ArticleDetailView POST (dispatching to ArticleDetailPost):
LoginRequiredMixin, get_object, then the CommentForm; form_valid
attaches the article from the URL and the requester as author and
saves; get_success_url redirects back to the article's detail page. -/
def addComment (s : AppState) (pk : Nat) (payload : List (String × String)) :
    HttpResponse × AppState :=
  match s.session with
  | none => (.redirectLogin (articleDetailPath pk), s)
  | some uid =>
    match findArticle s pk with
    | none => (.notFound, s)
    | some a =>
      let text := formCleanComment payload
      if commentFormErrors text ≠ [] then
        (.okErrors (commentFormErrors text), s)
      else
        let c : Comment :=
          { id := s.nextCommentId, comment := text, article := a.id, author := uid }
        (.redirect (articleDetailPath a.id),
         { s with comments := s.comments ++ [c]
                  nextCommentId := s.nextCommentId + 1 })

/-- ArticleUpdateView: LoginRequiredMixin, then UserPassesTestMixin with
test_func comparing the article's author with the requester (404 when
the id is missing, 403 when the authenticated requester is not the
author), then the model form on (title, body), then UpdateView saves
the two fields and redirects to the article's detail page. -/
def articleUpdate (s : AppState) (pk : Nat) (title body : String) :
    HttpResponse × AppState :=
  match s.session with
  | none => (.redirectLogin (articleEditPath pk), s)
  | some uid =>
    match findArticle s pk with
    | none => (.notFound, s)
    | some a =>
      if a.author ≠ uid then (.forbidden, s)
      else if articleFormErrors title body ≠ [] then
        (.okErrors (articleFormErrors title body), s)
      else
        (.redirect (articleDetailPath pk),
         { s with articles := s.articles.map (fun b =>
             if b.id == pk then { b with title := title, body := body } else b) })

/-- ArticleDeleteView (the confirming POST): LoginRequiredMixin, then
UserPassesTestMixin as in the update view, then DeleteView removes the
article; the CASCADE on Comment.article removes every comment that
references it; success_url is the article list. -/
def articleDelete (s : AppState) (pk : Nat) : HttpResponse × AppState :=
  match s.session with
  | none => (.redirectLogin (articleDeletePath pk), s)
  | some uid =>
    match findArticle s pk with
    | none => (.notFound, s)
    | some a =>
      if a.author ≠ uid then (.forbidden, s)
      else
        (.redirect articleListPath,
         { s with articles := s.articles.filter (fun b => b.id != pk)
                  comments := s.comments.filter (fun c => c.article != pk) })

/-- SignUpView form render: UserPassesTestMixin with test_func "not
authenticated"; an authenticated requester gets 403. -/
def signupGet (s : AppState) : HttpResponse × AppState :=
  match s.session with
  | some _ => (.forbidden, s)
  | none => (.ok, s)

/-- SignUpView submission: the same gate, then the signup form; on
success CreateView saves the new user and redirects to success_url,
the login page — the session is not touched (no auto-login). -/
def signupPost (s : AppState) (f : SignupForm) : HttpResponse × AppState :=
  match s.session with
  | some _ => (.forbidden, s)
  | none =>
    if signupFormErrors s f ≠ [] then
      (.okErrors (signupFormErrors s f), s)
    else
      let u : CustomUser :=
        { id := s.nextUserId, username := f.username, email := f.email
          password := f.password1, age := f.age }
      (.redirect loginPath,
       { s with users := s.users ++ [u]
                nextUserId := s.nextUserId + 1 })

/-- Session login (the framework's auth flow, spec section 4.3): a
username/password match establishes a session for that user. -/
def login (s : AppState) (username password : String) : HttpResponse × AppState :=
  match s.users.find? (fun u => u.username == username && u.password == password) with
  | some u => (.redirect articleListPath, { s with session := some u.id })
  | none => (.okErrors ["__all__"], s)

/-- Session logout: the session is invalidated. -/
def logout (s : AppState) : HttpResponse × AppState :=
  (.redirect "/", { s with session := none })

/-- Deleting a user, following the two on_delete CASCADE declarations
on Article.author and Comment.author: the user's articles go, every
comment referencing one of those articles goes with its article, and
every comment authored by the user goes; a session held by the deleted
user no longer resolves to a user and reads as anonymous. -/
def deleteUser (s : AppState) (uid : Nat) : AppState :=
  { s with
    users := s.users.filter (fun u => u.id != uid)
    articles := s.articles.filter (fun a => a.author != uid)
    comments := s.comments.filter (fun c =>
      c.author != uid &&
      !(s.articles.any (fun a => a.id == c.article && a.author == uid)))
    session := if s.session == some uid then none else s.session }

/-- The operations of the system, for reasoning about sequences of
requests. -/
inductive Op where
  | signup (f : SignupForm)
  | sessionLogin (username password : String)
  | sessionLogout
  | articleCreate (title body : String)
  | articleUpdate (pk : Nat) (title body : String)
  | articleDelete (pk : Nat)
  | addComment (pk : Nat) (payload : List (String × String))
  | deleteUser (uid : Nat)
deriving Repr, DecidableEq

/-- The state transition of one operation (the response is dropped). -/
def applyOp (s : AppState) : Op → AppState
  | .signup f => (signupPost s f).2
  | .sessionLogin u p => (login s u p).2
  | .sessionLogout => (logout s).2
  | .articleCreate t b => (articleCreate s t b).2
  | .articleUpdate pk t b => (articleUpdate s pk t b).2
  | .articleDelete pk => (articleDelete s pk).2
  | .addComment pk payload => (addComment s pk payload).2
  | .deleteUser uid => deleteUser s uid

/-- Running a sequence of operations. -/
def run (s : AppState) : List Op → AppState
  | [] => s
  | op :: ops => run (applyOp s op) ops

/-- Referential integrity of the three tables and the session: every
article's author exists, every comment's author and article exist, and
a session names an existing user. -/
def WF (s : AppState) : Prop :=
  (∀ a ∈ s.articles, ∃ u ∈ s.users, u.id = a.author) ∧
  (∀ c ∈ s.comments, ∃ u ∈ s.users, u.id = c.author) ∧
  (∀ c ∈ s.comments, ∃ a ∈ s.articles, a.id = c.article) ∧
  (∀ uid, s.session = some uid → ∃ u ∈ s.users, u.id = uid)

/-- Number of comments referencing the article with id pk. -/
def countComments (s : AppState) (pk : Nat) : Nat :=
  (s.comments.filter (fun c => c.article == pk)).length

/-! Concrete sample data for witnesses. -/

/-- A sample user, the author of the sample article. -/
def alice : CustomUser :=
  { id := 0, username := "alice", email := "a@example.net"
    password := "pw0", age := some 30 }

/-- A second sample user, not the author of the sample article. -/
def bob : CustomUser :=
  { id := 1, username := "bob", email := "b@example.net"
    password := "pw1", age := none }

/-- A sample article authored by alice. -/
def sampleArticle : Article :=
  { id := 0, title := "t", body := "b", date := 0, author := 0 }

/-- A sample comment on the sample article, authored by bob. -/
def sampleComment : Comment :=
  { id := 0, comment := "nice", article := 0, author := 1 }

/-- A sample state with both users, the article, the comment, and bob
logged in. -/
def sampleState : AppState :=
  { users := [alice, bob], articles := [sampleArticle]
    comments := [sampleComment], session := some 1
    nextUserId := 2, nextArticleId := 1, nextCommentId := 1, now := 5 }

/-- The sample state with the article's author logged in. -/
def ownerState : AppState := { sampleState with session := some 0 }

/-- The sample state with nobody logged in. -/
def anonState : AppState := { sampleState with session := none }

/-! Claims. -/

/-- C1: for every article and every authenticated requester, update and
delete succeed only when the requester is the article's author; an
authenticated non-author receives the fixed 403 response and the state
is unchanged. -/
theorem update_delete_owner_only (s : AppState) (uid pk : Nat) (t b : String)
    (a : Article) (hs : s.session = some uid) (ha : findArticle s pk = some a) :
    (a.author ≠ uid →
      articleUpdate s pk t b = (HttpResponse.forbidden, s) ∧
      articleDelete s pk = (HttpResponse.forbidden, s)) ∧
    ((articleUpdate s pk t b).2 ≠ s → a.author = uid) ∧
    ((articleDelete s pk).2 ≠ s → a.author = uid) := by
  refine ⟨fun hne => ?_, fun hchg => ?_, fun hchg => ?_⟩
  · simp [articleUpdate, articleDelete, hs, ha, hne]
  · by_contra hne
    simp [articleUpdate, hs, ha, hne] at hchg
  · by_contra hne
    simp [articleDelete, hs, ha, hne] at hchg

/-- Witness for C1 at the sample state with bob (not the author)
logged in. -/
theorem update_delete_owner_only_witness :
    (sampleArticle.author ≠ 1 →
      articleUpdate sampleState 0 "x" "y" = (HttpResponse.forbidden, sampleState) ∧
      articleDelete sampleState 0 = (HttpResponse.forbidden, sampleState)) ∧
    ((articleUpdate sampleState 0 "x" "y").2 ≠ sampleState → sampleArticle.author = 1) ∧
    ((articleDelete sampleState 0).2 ≠ sampleState → sampleArticle.author = 1) :=
  update_delete_owner_only sampleState 1 0 "x" "y" sampleArticle
    (by decide) (by decide)

/-- C2: deleting an article by its owner removes the article from the
store and removes every comment referencing it; the response is the
redirect to the article list. -/
theorem delete_cascades_comments (s : AppState) (uid pk : Nat) (a : Article)
    (hs : s.session = some uid) (ha : findArticle s pk = some a)
    (hown : a.author = uid) :
    (∀ b ∈ (articleDelete s pk).2.articles, b.id ≠ pk) ∧
    (∀ c ∈ (articleDelete s pk).2.comments, c.article ≠ pk) ∧
    (articleDelete s pk).1 = HttpResponse.redirect articleListPath := by
  simp only [articleDelete, hs, ha, hown, ne_eq, not_true_eq_false, if_false]
  refine ⟨fun b hb => ?_, fun c hc => ?_, trivial⟩
  · have h := (List.mem_filter.mp hb).2
    simpa using h
  · have h := (List.mem_filter.mp hc).2
    simpa using h

/-- Witness for C2 at the sample state with alice (the author)
logged in. -/
theorem delete_cascades_comments_witness :
    (∀ b ∈ (articleDelete ownerState 0).2.articles, b.id ≠ 0) ∧
    (∀ c ∈ (articleDelete ownerState 0).2.comments, c.article ≠ 0) ∧
    (articleDelete ownerState 0).1 = HttpResponse.redirect articleListPath :=
  delete_cascades_comments ownerState 0 0 sampleArticle
    (by decide) (by decide) (by decide)

/-- C3: every article operation answers an unauthenticated request with
the redirect to the login page carrying the originally requested path
as return path, and leaves the state unchanged. -/
theorem anonymous_redirects_to_login (s : AppState) (pk : Nat) (t b : String)
    (payload : List (String × String)) (hs : s.session = none) :
    articleList s = (HttpResponse.redirectLogin articleListPath, s) ∧
    articleDetailGet s pk = (HttpResponse.redirectLogin (articleDetailPath pk), s) ∧
    articleCreate s t b = (HttpResponse.redirectLogin articleNewPath, s) ∧
    addComment s pk payload = (HttpResponse.redirectLogin (articleDetailPath pk), s) ∧
    articleUpdate s pk t b = (HttpResponse.redirectLogin (articleEditPath pk), s) ∧
    articleDelete s pk = (HttpResponse.redirectLogin (articleDeletePath pk), s) := by
  simp [articleList, articleDetailGet, articleCreate, addComment,
    articleUpdate, articleDelete, hs]

/-- Witness for C3 at the sample state with nobody logged in. -/
theorem anonymous_redirects_to_login_witness :
    articleList anonState = (HttpResponse.redirectLogin articleListPath, anonState) ∧
    articleDetailGet anonState 0 =
      (HttpResponse.redirectLogin (articleDetailPath 0), anonState) ∧
    articleCreate anonState "x" "y" =
      (HttpResponse.redirectLogin articleNewPath, anonState) ∧
    addComment anonState 0 [("comment", "hi")] =
      (HttpResponse.redirectLogin (articleDetailPath 0), anonState) ∧
    articleUpdate anonState 0 "x" "y" =
      (HttpResponse.redirectLogin (articleEditPath 0), anonState) ∧
    articleDelete anonState 0 =
      (HttpResponse.redirectLogin (articleDeletePath 0), anonState) :=
  anonymous_redirects_to_login anonState 0 "x" "y" [("comment", "hi")] (by decide)

/-- C4: a valid comment submission by an authenticated requester appends
exactly one comment, whose author is the requester and whose article is
the one named in the URL, raises that article's comment count by one,
and redirects back to the article's detail page. -/
theorem valid_comment_adds_exactly_one (s : AppState) (uid pk : Nat) (a : Article)
    (payload : List (String × String))
    (hs : s.session = some uid) (ha : findArticle s pk = some a)
    (hvalid : commentFormErrors (formCleanComment payload) = []) :
    (addComment s pk payload).2.comments =
      s.comments ++
        [{ id := s.nextCommentId, comment := formCleanComment payload
           article := a.id, author := uid }] ∧
    countComments (addComment s pk payload).2 a.id = countComments s a.id + 1 ∧
    (addComment s pk payload).1 = HttpResponse.redirect (articleDetailPath a.id) := by
  simp [addComment, countComments, hs, ha, hvalid, List.filter_append]

/-- Witness for C4: bob comments on the sample article. -/
theorem valid_comment_adds_exactly_one_witness :
    (addComment sampleState 0 [("comment", "hi")]).2.comments =
      sampleState.comments ++
        [{ id := sampleState.nextCommentId
           comment := formCleanComment [("comment", "hi")]
           article := sampleArticle.id, author := 1 }] ∧
    countComments (addComment sampleState 0 [("comment", "hi")]).2 sampleArticle.id =
      countComments sampleState sampleArticle.id + 1 ∧
    (addComment sampleState 0 [("comment", "hi")]).1 =
      HttpResponse.redirect (articleDetailPath sampleArticle.id) :=
  valid_comment_adds_exactly_one sampleState 1 0 sampleArticle [("comment", "hi")]
    (by decide) (by decide) (by decide)

/-- C5: a valid signup by an unauthenticated requester appends exactly
one user and establishes no session, redirecting to the login page; any
signup request (render or submission) by an authenticated requester is
answered 403 with the state unchanged. -/
theorem signup_creates_one_user_no_session (s1 s2 : AppState) (f : SignupForm)
    (uid : Nat) (h1 : s1.session = none) (hv : signupFormErrors s1 f = [])
    (h2 : s2.session = some uid) :
    (signupPost s1 f).2.users =
      s1.users ++
        [{ id := s1.nextUserId, username := f.username, email := f.email
           password := f.password1, age := f.age }] ∧
    (signupPost s1 f).2.users.length = s1.users.length + 1 ∧
    (signupPost s1 f).2.session = none ∧
    (signupPost s1 f).1 = HttpResponse.redirect loginPath ∧
    signupGet s2 = (HttpResponse.forbidden, s2) ∧
    signupPost s2 f = (HttpResponse.forbidden, s2) := by
  simp [signupPost, signupGet, h1, h2, hv]

/-- Witness for C5: a fresh username signed up from the anonymous
sample state, and the same submission rejected from bob's session. -/
theorem signup_creates_one_user_no_session_witness :
    (signupPost anonState
        { username := "carol", email := "c@example.net", age := some 20
          password1 := "pw2", password2 := "pw2" }).2.users =
      anonState.users ++
        [{ id := anonState.nextUserId, username := "carol"
           email := "c@example.net", password := "pw2", age := some 20 }] ∧
    (signupPost anonState
        { username := "carol", email := "c@example.net", age := some 20
          password1 := "pw2", password2 := "pw2" }).2.users.length =
      anonState.users.length + 1 ∧
    (signupPost anonState
        { username := "carol", email := "c@example.net", age := some 20
          password1 := "pw2", password2 := "pw2" }).2.session = none ∧
    (signupPost anonState
        { username := "carol", email := "c@example.net", age := some 20
          password1 := "pw2", password2 := "pw2" }).1 =
      HttpResponse.redirect loginPath ∧
    signupGet sampleState = (HttpResponse.forbidden, sampleState) ∧
    signupPost sampleState
        { username := "carol", email := "c@example.net", age := some 20
          password1 := "pw2", password2 := "pw2" } =
      (HttpResponse.forbidden, sampleState) :=
  signup_creates_one_user_no_session anonState sampleState
    { username := "carol", email := "c@example.net", age := some 20
      password1 := "pw2", password2 := "pw2" } 1
    (by decide) (by decide) (by decide)

/-- C6: for an authenticated requester, an article creation whose form
fails validation returns the field errors and leaves the state (hence
the article count) unchanged; a valid creation appends exactly one
article whose author is the requester and redirects to it. -/
theorem create_rejects_invalid_sets_owner (s : AppState) (uid : Nat)
    (t1 b1 t2 b2 : String) (hs : s.session = some uid)
    (hbad : articleFormErrors t1 b1 ≠ [])
    (hgood : articleFormErrors t2 b2 = []) :
    articleCreate s t1 b1 = (HttpResponse.okErrors (articleFormErrors t1 b1), s) ∧
    (articleCreate s t2 b2).2.articles =
      s.articles ++
        [{ id := s.nextArticleId, title := t2, body := b2
           date := s.now, author := uid }] ∧
    (articleCreate s t2 b2).1 =
      HttpResponse.redirect (articleDetailPath s.nextArticleId) := by
  simp [articleCreate, hs, hbad, hgood]

/-- Witness for C6: bob submits an empty body and then a valid form. -/
theorem create_rejects_invalid_sets_owner_witness :
    articleCreate sampleState "x" "" =
      (HttpResponse.okErrors (articleFormErrors "x" ""), sampleState) ∧
    (articleCreate sampleState "x" "y").2.articles =
      sampleState.articles ++
        [{ id := sampleState.nextArticleId, title := "x", body := "y"
           date := sampleState.now, author := 1 }] ∧
    (articleCreate sampleState "x" "y").1 =
      HttpResponse.redirect (articleDetailPath sampleState.nextArticleId) :=
  create_rejects_invalid_sets_owner sampleState 1 "x" "" "x" "y"
    (by decide) (by decide) (by decide)

/-- C7: an empty comment submission by an authenticated requester on an
existing article returns the detail view with the field error on the
comment field and persists nothing: the state is unchanged. -/
theorem empty_comment_rejected (s : AppState) (uid pk : Nat) (a : Article)
    (payload : List (String × String)) (hs : s.session = some uid)
    (ha : findArticle s pk = some a)
    (hempty : formCleanComment payload = "") :
    addComment s pk payload = (HttpResponse.okErrors ["comment"], s) := by
  simp [addComment, hs, ha, hempty, commentFormErrors]

/-- Witness for C7: bob submits a payload with no comment text. -/
theorem empty_comment_rejected_witness :
    addComment sampleState 0 [("author", "0")] =
      (HttpResponse.okErrors ["comment"], sampleState) :=
  empty_comment_rejected sampleState 1 0 sampleArticle [("author", "0")]
    (by decide) (by decide) (by decide)

/-- C8: a successful update by the owner changes only title and body:
the id, creation date and author of every article (the updated one
included) are as before, an article whose id is not the updated one is
untouched, and the comments and users tables are unchanged. -/
theorem owner_update_preserves_date_author (s : AppState) (uid pk : Nat)
    (t b : String) (a : Article) (hs : s.session = some uid)
    (ha : findArticle s pk = some a) (hown : a.author = uid)
    (hgood : articleFormErrors t b = []) :
    ((articleUpdate s pk t b).2.articles.map (fun x => (x.id, x.date, x.author)) =
      s.articles.map (fun x => (x.id, x.date, x.author))) ∧
    (∀ x ∈ (articleUpdate s pk t b).2.articles, x.id ≠ pk → x ∈ s.articles) ∧
    ((articleUpdate s pk t b).2.comments = s.comments) ∧
    ((articleUpdate s pk t b).2.users = s.users) := by
  simp only [articleUpdate, hs, ha, hown, ne_eq, not_true_eq_false, if_false,
    hgood, ite_not, List.map_map]
  refine ⟨?_, fun x hx hne => ?_, trivial, trivial⟩
  · refine List.map_congr_left (fun x hx => ?_)
    by_cases h : x.id = pk <;> simp [h]
  · rcases List.mem_map.mp hx with ⟨y, hy, hxy⟩
    by_cases h : y.id = pk
    · exfalso
      apply hne
      rw [← hxy]
      simp [h]
    · rw [← hxy]
      simpa [h] using hy

/-- Witness for C8: alice updates her article. -/
theorem owner_update_preserves_date_author_witness :
    ((articleUpdate ownerState 0 "x" "y").2.articles.map
        (fun x => (x.id, x.date, x.author)) =
      ownerState.articles.map (fun x => (x.id, x.date, x.author))) ∧
    (∀ x ∈ (articleUpdate ownerState 0 "x" "y").2.articles,
      x.id ≠ 0 → x ∈ ownerState.articles) ∧
    ((articleUpdate ownerState 0 "x" "y").2.comments = ownerState.comments) ∧
    ((articleUpdate ownerState 0 "x" "y").2.users = ownerState.users) :=
  owner_update_preserves_date_author ownerState 0 0 "x" "y" sampleArticle
    (by decide) (by decide) (by decide) (by decide)

/-! Preservation of referential integrity by each operation. -/

/-- Signup preserves referential integrity: it only appends a user. -/
theorem WF_signupPost (s : AppState) (f : SignupForm) (h : WF s) :
    WF (signupPost s f).2 := by
  obtain ⟨h1, h2, h3, h4⟩ := h
  cases hsess : s.session with
  | some uid =>
    have hst : (signupPost s f).2 = s := by simp [signupPost, hsess]
    rw [hst]
    exact ⟨h1, h2, h3, h4⟩
  | none =>
    by_cases hv : signupFormErrors s f = []
    · have hst : (signupPost s f).2 =
        { s with
          users := s.users ++
            [{ id := s.nextUserId, username := f.username, email := f.email
               password := f.password1, age := f.age }]
          nextUserId := s.nextUserId + 1 } := by
        simp [signupPost, hsess, hv]
      rw [hst]
      refine ⟨fun a ha => ?_, fun c hc => ?_, h3, fun v hv2 => ?_⟩
      · obtain ⟨u, hu, huid⟩ := h1 a ha
        exact ⟨u, List.mem_append_left _ hu, huid⟩
      · obtain ⟨u, hu, huid⟩ := h2 c hc
        exact ⟨u, List.mem_append_left _ hu, huid⟩
      · have hv3 : s.session = some v := hv2
        rw [hsess] at hv3
        exact Option.noConfusion hv3
    · have hst : (signupPost s f).2 = s := by simp [signupPost, hsess, hv]
      rw [hst]
      exact ⟨h1, h2, h3, h4⟩

/-- Login preserves referential integrity: it only points the session
at a user found in the user table. -/
theorem WF_login (s : AppState) (u p : String) (h : WF s) :
    WF (login s u p).2 := by
  obtain ⟨h1, h2, h3, h4⟩ := h
  cases hfind : s.users.find? (fun w => w.username == u && w.password == p) with
  | none =>
    have hst : (login s u p).2 = s := by simp [login, hfind]
    rw [hst]
    exact ⟨h1, h2, h3, h4⟩
  | some w =>
    have hst : (login s u p).2 = { s with session := some w.id } := by
      simp [login, hfind]
    rw [hst]
    refine ⟨h1, h2, h3, fun v hv => ?_⟩
    have hv2 : some w.id = some v := hv
    have hwv : w.id = v := Option.some.inj hv2
    exact ⟨w, List.mem_of_find?_eq_some hfind, hwv⟩

/-- Logout preserves referential integrity: it only clears the
session. -/
theorem WF_logout (s : AppState) (h : WF s) : WF (logout s).2 := by
  obtain ⟨h1, h2, h3, h4⟩ := h
  refine ⟨h1, h2, h3, fun v hv => ?_⟩
  have hv2 : (none : Option Nat) = some v := hv
  exact Option.noConfusion hv2

/-- Article creation preserves referential integrity: the appended
article's author is the session user, who exists. -/
theorem WF_articleCreate (s : AppState) (t b : String) (h : WF s) :
    WF (articleCreate s t b).2 := by
  obtain ⟨h1, h2, h3, h4⟩ := h
  cases hsess : s.session with
  | none =>
    have hst : (articleCreate s t b).2 = s := by simp [articleCreate, hsess]
    rw [hst]
    exact ⟨h1, h2, h3, h4⟩
  | some uid =>
    by_cases hv : articleFormErrors t b = []
    · have hst : (articleCreate s t b).2 =
        { s with
          articles := s.articles ++
            [{ id := s.nextArticleId, title := t, body := b
               date := s.now, author := uid }]
          nextArticleId := s.nextArticleId + 1 } := by
        simp [articleCreate, hsess, hv]
      rw [hst]
      refine ⟨fun a ha => ?_, h2, fun c hc => ?_, fun v hv2 => ?_⟩
      · rcases List.mem_append.mp ha with hold | hnew
        · exact h1 a hold
        · have ha2 : a.author = uid := by
            rcases List.mem_singleton.mp hnew with rfl
            rfl
          rw [ha2]
          exact h4 uid hsess
      · obtain ⟨a, haS, haid⟩ := h3 c hc
        exact ⟨a, List.mem_append_left _ haS, haid⟩
      · have hv3 : s.session = some v := hv2
        exact h4 v hv3
    · have hst : (articleCreate s t b).2 = s := by simp [articleCreate, hsess, hv]
      rw [hst]
      exact ⟨h1, h2, h3, h4⟩

/-- An article found by primary key is in the article table. -/
theorem findArticle_mem (s : AppState) (pk : Nat) (a : Article)
    (h : findArticle s pk = some a) : a ∈ s.articles :=
  List.mem_of_find?_eq_some h

/-- Article update preserves referential integrity: the map keeps every
article's id and author. -/
theorem WF_articleUpdate (s : AppState) (pk : Nat) (t b : String) (h : WF s) :
    WF (articleUpdate s pk t b).2 := by
  obtain ⟨h1, h2, h3, h4⟩ := h
  cases hsess : s.session with
  | none =>
    have hst : (articleUpdate s pk t b).2 = s := by simp [articleUpdate, hsess]
    rw [hst]
    exact ⟨h1, h2, h3, h4⟩
  | some uid =>
    cases hfind : findArticle s pk with
    | none =>
      have hst : (articleUpdate s pk t b).2 = s := by
        simp [articleUpdate, hsess, hfind]
      rw [hst]
      exact ⟨h1, h2, h3, h4⟩
    | some a =>
      by_cases hown : a.author = uid
      · by_cases hv : articleFormErrors t b = []
        · have hst : (articleUpdate s pk t b).2 =
            { s with articles := s.articles.map (fun x =>
                if x.id == pk then { x with title := t, body := b } else x) } := by
            simp [articleUpdate, hsess, hfind, hown, hv]
          rw [hst]
          refine ⟨fun x hx => ?_, h2, fun c hc => ?_, fun v hv2 => ?_⟩
          · rcases List.mem_map.mp hx with ⟨y, hy, hxy⟩
            have hauth : x.author = y.author := by
              rw [← hxy]
              by_cases hid : y.id = pk <;> simp [hid]
            rw [hauth]
            exact h1 y hy
          · obtain ⟨a1, ha1, haid⟩ := h3 c hc
            refine ⟨if a1.id == pk then { a1 with title := t, body := b } else a1,
              List.mem_map_of_mem _ ha1, ?_⟩
            by_cases hid : a1.id = pk
            · rw [if_pos (by simp [hid])]
              simpa using haid
            · rw [if_neg (by simp [hid])]
              exact haid
          · exact h4 v hv2
        · have hst : (articleUpdate s pk t b).2 = s := by
            simp [articleUpdate, hsess, hfind, hown, hv]
          rw [hst]
          exact ⟨h1, h2, h3, h4⟩
      · have hst : (articleUpdate s pk t b).2 = s := by
          simp [articleUpdate, hsess, hfind, hown]
        rw [hst]
        exact ⟨h1, h2, h3, h4⟩

/-- Article deletion preserves referential integrity: the cascade keeps
no comment whose article went away. -/
theorem WF_articleDelete (s : AppState) (pk : Nat) (h : WF s) :
    WF (articleDelete s pk).2 := by
  obtain ⟨h1, h2, h3, h4⟩ := h
  cases hsess : s.session with
  | none =>
    have hst : (articleDelete s pk).2 = s := by simp [articleDelete, hsess]
    rw [hst]
    exact ⟨h1, h2, h3, h4⟩
  | some uid =>
    cases hfind : findArticle s pk with
    | none =>
      have hst : (articleDelete s pk).2 = s := by
        simp [articleDelete, hsess, hfind]
      rw [hst]
      exact ⟨h1, h2, h3, h4⟩
    | some a =>
      by_cases hown : a.author = uid
      · have hst : (articleDelete s pk).2 =
          { s with articles := s.articles.filter (fun x => x.id != pk)
                   comments := s.comments.filter (fun c => c.article != pk) } := by
          simp [articleDelete, hsess, hfind, hown]
        rw [hst]
        refine ⟨fun x hx => ?_, fun c hc => ?_, fun c hc => ?_, fun v hv2 => ?_⟩
        · exact h1 x (List.mem_filter.mp hx).1
        · exact h2 c (List.mem_filter.mp hc).1
        · obtain ⟨hcS, hcne⟩ := List.mem_filter.mp hc
          obtain ⟨a1, ha1, haid⟩ := h3 c hcS
          refine ⟨a1, List.mem_filter.mpr ⟨ha1, ?_⟩, haid⟩
          rw [haid]
          exact hcne
        · exact h4 v hv2
      · have hst : (articleDelete s pk).2 = s := by
          simp [articleDelete, hsess, hfind, hown]
        rw [hst]
        exact ⟨h1, h2, h3, h4⟩

/-- Comment creation preserves referential integrity: the appended
comment's author is the session user and its article was found in the
table. -/
theorem WF_addComment (s : AppState) (pk : Nat) (payload : List (String × String))
    (h : WF s) : WF (addComment s pk payload).2 := by
  obtain ⟨h1, h2, h3, h4⟩ := h
  cases hsess : s.session with
  | none =>
    have hst : (addComment s pk payload).2 = s := by simp [addComment, hsess]
    rw [hst]
    exact ⟨h1, h2, h3, h4⟩
  | some uid =>
    cases hfind : findArticle s pk with
    | none =>
      have hst : (addComment s pk payload).2 = s := by
        simp [addComment, hsess, hfind]
      rw [hst]
      exact ⟨h1, h2, h3, h4⟩
    | some a =>
      by_cases hv : commentFormErrors (formCleanComment payload) = []
      · have hst : (addComment s pk payload).2 =
          { s with
            comments := s.comments ++
              [{ id := s.nextCommentId, comment := formCleanComment payload
                 article := a.id, author := uid }]
            nextCommentId := s.nextCommentId + 1 } := by
          simp [addComment, hsess, hfind, hv]
        rw [hst]
        refine ⟨h1, fun c hc => ?_, fun c hc => ?_, fun v hv2 => ?_⟩
        · rcases List.mem_append.mp hc with hold | hnew
          · exact h2 c hold
          · have hc2 : c.author = uid := by
              rcases List.mem_singleton.mp hnew with rfl
              rfl
            rw [hc2]
            exact h4 uid hsess
        · rcases List.mem_append.mp hc with hold | hnew
          · exact h3 c hold
          · have hc2 : c.article = a.id := by
              rcases List.mem_singleton.mp hnew with rfl
              rfl
            exact ⟨a, findArticle_mem s pk a hfind, hc2.symm⟩
        · exact h4 v hv2
      · have hst : (addComment s pk payload).2 = s := by
          simp [addComment, hsess, hfind, hv]
        rw [hst]
        exact ⟨h1, h2, h3, h4⟩

/-- User deletion, as declared by the CASCADE foreign keys, preserves
referential integrity. -/
theorem WF_deleteUser (s : AppState) (uid : Nat) (h : WF s) :
    WF (deleteUser s uid) := by
  obtain ⟨h1, h2, h3, h4⟩ := h
  refine ⟨fun a ha => ?_, fun c hc => ?_, fun c hc => ?_, fun v hv => ?_⟩
  · obtain ⟨haS, hane⟩ := List.mem_filter.mp ha
    have hane2 : a.author ≠ uid := by simpa using hane
    obtain ⟨u, hu, huid⟩ := h1 a haS
    refine ⟨u, List.mem_filter.mpr ⟨hu, ?_⟩, huid⟩
    simp [huid, hane2]
  · obtain ⟨hcS, hcond⟩ := List.mem_filter.mp hc
    rw [Bool.and_eq_true] at hcond
    have hcne : c.author ≠ uid := by simpa using hcond.1
    obtain ⟨u, hu, huid⟩ := h2 c hcS
    refine ⟨u, List.mem_filter.mpr ⟨hu, ?_⟩, huid⟩
    simp [huid, hcne]
  · obtain ⟨hcS, hcond⟩ := List.mem_filter.mp hc
    rw [Bool.and_eq_true] at hcond
    have hany : ∀ x ∈ s.articles, x.id = c.article → x.author ≠ uid := by
      have h0 := hcond.2
      simp only [Bool.not_eq_true', List.any_eq_false, Bool.and_eq_true,
        beq_iff_eq, not_and] at h0
      exact h0
    obtain ⟨a1, ha1, haid⟩ := h3 c hcS
    have hane : a1.author ≠ uid := hany a1 ha1 haid
    refine ⟨a1, List.mem_filter.mpr ⟨ha1, ?_⟩, haid⟩
    simp [hane]
  · have hv2 : (if s.session == some uid then none else s.session) = some v := hv
    by_cases hcase : s.session = some uid
    · rw [if_pos (by simp [hcase])] at hv2
      exact Option.noConfusion hv2
    · rw [if_neg (by simp [hcase])] at hv2
      obtain ⟨u, hu, huid⟩ := h4 v hv2
      have hvne : v ≠ uid := by
        intro heq
        rw [heq] at hv2
        exact hcase hv2
      refine ⟨u, List.mem_filter.mpr ⟨hu, ?_⟩, huid⟩
      simp [huid, hvne]

/-- Every operation preserves referential integrity. -/
theorem WF_applyOp (s : AppState) (op : Op) (h : WF s) : WF (applyOp s op) := by
  cases op with
  | signup f => exact WF_signupPost s f h
  | sessionLogin u p => exact WF_login s u p h
  | sessionLogout => exact WF_logout s h
  | articleCreate t b => exact WF_articleCreate s t b h
  | articleUpdate pk t b => exact WF_articleUpdate s pk t b h
  | articleDelete pk => exact WF_articleDelete s pk h
  | addComment pk payload => exact WF_addComment s pk payload h
  | deleteUser uid => exact WF_deleteUser s uid h

/-- Every sequence of operations preserves referential integrity. -/
theorem WF_run (s : AppState) (ops : List Op) (h : WF s) : WF (run s ops) := by
  induction ops generalizing s with
  | nil => exact h
  | cons op ops ih => exact ih (applyOp s op) (WF_applyOp s op h)

/-- C9: deleting a user removes every article and every comment
authored by that user, and referential integrity of author and article
references is preserved by every sequence of operations. -/
theorem user_delete_preserves_integrity (s : AppState) (uid : Nat)
    (ops : List Op) (h : WF s) :
    (∀ a ∈ (deleteUser s uid).articles, a.author ≠ uid) ∧
    (∀ c ∈ (deleteUser s uid).comments, c.author ≠ uid) ∧
    WF (run s ops) := by
  refine ⟨fun a ha => ?_, fun c hc => ?_, WF_run s ops h⟩
  · have h2 := (List.mem_filter.mp ha).2
    simpa using h2
  · have h2 := (List.mem_filter.mp hc).2
    rw [Bool.and_eq_true] at h2
    simpa using h2.1

/-- Witness for C9: deleting alice from the sample state, and a run
that creates an article and then deletes its author. -/
theorem user_delete_preserves_integrity_witness :
    (∀ a ∈ (deleteUser sampleState 0).articles, a.author ≠ 0) ∧
    (∀ c ∈ (deleteUser sampleState 0).comments, c.author ≠ 0) ∧
    WF (run sampleState [Op.articleCreate "x" "y", Op.deleteUser 0]) :=
  user_delete_preserves_integrity sampleState 0
    [Op.articleCreate "x" "y", Op.deleteUser 0]
    ⟨by decide, by decide, by decide,
     fun v hv => ⟨bob, by decide, Option.some.inj hv⟩⟩

/-- C10: the stored comment depends on the request payload only through
the comment text: two payloads agreeing on the comment field produce the
same response and the same state, whatever extra fields they carry. -/
theorem comment_depends_only_on_text (s : AppState) (pk : Nat)
    (p1 p2 : List (String × String))
    (h : formCleanComment p1 = formCleanComment p2) :
    addComment s pk p1 = addComment s pk p2 := by
  unfold addComment
  rw [h]

/-- Witness for C10: two payloads with the same text but different
extra author and article fields give the same result. -/
theorem comment_depends_only_on_text_witness :
    addComment sampleState 0 [("comment", "hi"), ("author", "0")] =
      addComment sampleState 0 [("comment", "hi"), ("article", "7"), ("author", "42")] :=
  comment_depends_only_on_text sampleState 0
    [("comment", "hi"), ("author", "0")]
    [("comment", "hi"), ("article", "7"), ("author", "42")] (by decide)

end TheNewsPage
